import Mathlib

/-!
A shallow embedding of the dieah-memory service (Rust sources under
src/dieah-memory), covering the data model (memory.rs, message.rs), the three
storage backends (storage/sqlite.rs, storage/vector.rs, storage/jsonl.rs), the
retrieval pipeline and context budget (retrieval.rs), and the HTTP handlers
(bin/server.rs), together with theorems settling the specification claims.

Modelling conventions: machine integers become Nat; f32 scores, thresholds and
distances become ℚ (exact rationals; NaN and infinity do not arise, which is
noted where relevant); UUIDs and timestamps are opaque String / Nat parameters
supplied by the caller (the Rust code draws them from Uuid::new_v4 and
Utc::now); the SQLite memories table is a list of rows; the LanceDB vector
table is a list of rows and its nearest-neighbour engine is modelled as exact
KNN by ascending distance; the per-(agent, topic) JSONL files are a total map
from (agent, topic) to the list of messages appended, abstracting over JSON
serialisation (one line per message, append order preserved); HTTP outcomes
are Except Nat with the numeric status code as the error.
-/

namespace Dieah

/-- Scope of a memory (memory.rs, MemoryScope). -/
inductive MemoryScope
  | global
  | agent
  | topic
  | personal
deriving DecidableEq, Repr

/-- Canonical lowercase label of a scope (memory.rs, Display for MemoryScope). -/
def MemoryScope.toString : MemoryScope → String
  | .global => "global"
  | .agent => "agent"
  | .topic => "topic"
  | .personal => "personal"

/-- Type of a memory (memory.rs, MemoryType). -/
inductive MemoryType
  | correction
  | preference
  | fact
  | workflow
  | constraint
deriving DecidableEq, Repr

/-- Canonical lowercase label of a memory type (memory.rs, Display for MemoryType). -/
def MemoryType.toString : MemoryType → String
  | .correction => "correction"
  | .preference => "preference"
  | .fact => "fact"
  | .workflow => "workflow"
  | .constraint => "constraint"

/-- Role of a conversation message (message.rs, Role). -/
inductive Role
  | system
  | user
  | assistant
  | tool
deriving DecidableEq, Repr

/-- A conversation message (message.rs, Message). The timestamp is an abstract
Nat; metadata (tool calls etc.) is not needed by any claim and is omitted. -/
structure Message where
  id : String
  agent_id : String
  topic_id : String
  role : Role
  content : String
  tokens : Nat
  timestamp : Nat
deriving DecidableEq, Repr

/-- A learned memory (memory.rs, Memory). The embedding is a rational vector,
present only after embedding (None in all MetaStore reads). -/
structure Memory where
  id : String
  scope : MemoryScope
  memory_type : MemoryType
  agent_id : Option String
  topic_id : Option String
  content : String
  context : Option String
  tags : List String
  embedding : Option (List ℚ)
  created_at : Nat
  last_used_at : Option Nat
  retrieval_count : Nat
  active : Bool
deriving DecidableEq, Repr

/-- Memory::global (memory.rs lines 128-144). The fresh UUID and the current
time, drawn internally by the Rust code, are explicit parameters here. -/
def Memory.global (id : String) (now : Nat) (memory_type : MemoryType)
    (content : String) : Memory :=
  { id := id, scope := .global, memory_type := memory_type, agent_id := none,
    topic_id := none, content := content, context := none, tags := [],
    embedding := none, created_at := now, last_used_at := none,
    retrieval_count := 0, active := true }

/-- Memory::for_agent (memory.rs lines 147-167). -/
def Memory.for_agent (id : String) (now : Nat) (agent_id : String)
    (memory_type : MemoryType) (content : String) : Memory :=
  { id := id, scope := .agent, memory_type := memory_type,
    agent_id := some agent_id, topic_id := none, content := content,
    context := none, tags := [], embedding := none, created_at := now,
    last_used_at := none, retrieval_count := 0, active := true }

/-- Memory::for_topic (memory.rs lines 170-191). -/
def Memory.for_topic (id : String) (now : Nat) (agent_id topic_id : String)
    (memory_type : MemoryType) (content : String) : Memory :=
  { id := id, scope := .topic, memory_type := memory_type,
    agent_id := some agent_id, topic_id := some topic_id, content := content,
    context := none, tags := [], embedding := none, created_at := now,
    last_used_at := none, retrieval_count := 0, active := true }

/-- Memory::with_context (memory.rs lines 194-197). -/
def Memory.with_context (m : Memory) (c : String) : Memory :=
  { m with context := some c }

/-- Memory::with_tags (memory.rs lines 200-203). -/
def Memory.with_tags (m : Memory) (tags : List String) : Memory :=
  { m with tags := tags }

/-- Memory::mark_used (memory.rs lines 212-215). -/
def Memory.mark_used (m : Memory) (now : Nat) : Memory :=
  { m with last_used_at := some now, retrieval_count := m.retrieval_count + 1 }

/-- The scope-shape invariant of spec section 3: global and personal carry
neither id, agent carries only an agent id, topic carries both. -/
def scope_shape (m : Memory) : Bool :=
  match m.scope with
  | .global => m.agent_id.isNone && m.topic_id.isNone
  | .personal => m.agent_id.isNone && m.topic_id.isNone
  | .agent => m.agent_id.isSome && m.topic_id.isNone
  | .topic => m.agent_id.isSome && m.topic_id.isSome

/-- Scope-string validation used by the POST /memories handler (server.rs
lines 152-158) and, via Option.and_then, by GET /memories (lines 114-120). -/
def parse_scope (s : String) : Option MemoryScope :=
  if s = "global" then some .global
  else if s = "agent" then some .agent
  else if s = "topic" then some .topic
  else if s = "personal" then some .personal
  else none

/-- Memory-type-string validation of the POST /memories handler (server.rs
lines 160-167). -/
def parse_memory_type (s : String) : Option MemoryType :=
  if s = "correction" then some .correction
  else if s = "preference" then some .preference
  else if s = "fact" then some .fact
  else if s = "workflow" then some .workflow
  else if s = "constraint" then some .constraint
  else none

/-- Role-string validation of the POST /messages handler (server.rs
lines 318-324). -/
def parse_role (s : String) : Option Role :=
  if s = "system" then some .system
  else if s = "user" then some .user
  else if s = "assistant" then some .assistant
  else if s = "tool" then some .tool
  else none

/-! ## MetaStore (storage/sqlite.rs), modelled as a list of memory rows. -/

/-- SqliteStorage::save_memory (sqlite.rs lines 30-64): INSERT, ON CONFLICT(id)
updating only content, context, tags, last_used_at, retrieval_count and active
(scope, type, ids and created_at are immutable identity). The table never
stores the embedding, so inserted rows carry embedding := none, matching
get_memory which always returns it absent. -/
def SqliteStorage.save_memory (meta : List Memory) (m : Memory) : List Memory :=
  if meta.any (fun r => r.id = m.id) then
    meta.map (fun r =>
      if r.id = m.id then
        { r with content := m.content, context := m.context, tags := m.tags,
                 last_used_at := m.last_used_at,
                 retrieval_count := m.retrieval_count, active := m.active }
      else r)
  else meta ++ [{ m with embedding := none }]

/-- SqliteStorage::get_memory (sqlite.rs lines 67-96). -/
def SqliteStorage.get_memory (meta : List Memory) (id : String) : Option Memory :=
  meta.find? (fun r => r.id = id)

/-- Descending created_at order used by ORDER BY created_at DESC. -/
def createdGe (a b : Memory) : Prop := b.created_at ≤ a.created_at

instance : DecidableRel createdGe := fun a b =>
  inferInstanceAs (Decidable (b.created_at ≤ a.created_at))

instance : IsTotal Memory createdGe := ⟨fun a b => le_total b.created_at a.created_at⟩

instance : IsTrans Memory createdGe := ⟨fun _ _ _ h1 h2 => le_trans h2 h1⟩

/-- SqliteStorage::list_memories (sqlite.rs lines 99-165): conjunctive filter
on scope, agent_id, topic_id and active, ordered by created_at descending. -/
def SqliteStorage.list_memories (meta : List Memory) (scope : Option MemoryScope)
    (agent_id topic_id : Option String) (active_only : Bool) : List Memory :=
  List.insertionSort createdGe (meta.filter (fun m =>
    (match scope with
     | some s => decide (m.scope = s)
     | none => true) &&
    (match agent_id with
     | some a => decide (m.agent_id = some a)
     | none => true) &&
    (match topic_id with
     | some t => decide (m.topic_id = some t)
     | none => true) &&
    (!active_only || m.active)))

/-- SqliteStorage::delete_memory (sqlite.rs lines 168-172): DELETE WHERE id,
a no-op when no row matches. -/
def SqliteStorage.delete_memory (meta : List Memory) (id : String) : List Memory :=
  meta.filter (fun r => r.id ≠ id)

/-- SqliteStorage::set_memory_active (sqlite.rs lines 175-182). -/
def SqliteStorage.set_memory_active (meta : List Memory) (id : String)
    (active : Bool) : List Memory :=
  meta.map (fun r => if r.id = id then { r with active := active } else r)

/-- SqliteStorage::mark_memory_used (sqlite.rs lines 185-196): sets
last_used_at to now and increments retrieval_count for the given id. -/
def SqliteStorage.mark_memory_used (now : Nat) (meta : List Memory)
    (id : String) : List Memory :=
  meta.map (fun r =>
    if r.id = id then
      { r with last_used_at := some now, retrieval_count := r.retrieval_count + 1 }
    else r)

/-! ## VectorIndex (storage/vector.rs), modelled as a list of rows with an
exact-KNN engine. -/

/-- A row of the LanceDB memories table (vector.rs schema, lines 45-62). -/
structure VectorRow where
  id : String
  content : String
  scope : String
  memory_type : String
  agent_id : Option String
  topic_id : Option String
  vec : List ℚ
deriving DecidableEq, Repr

/-- Squared L2 distance, the engine's metric; only its nonnegativity and
monotone order matter to the claims. -/
def dist2 (x y : List ℚ) : ℚ :=
  (List.zipWith (fun a b => (a - b) * (a - b)) x y).sum

/-- The SQL predicate built by VectorStorage::search (vector.rs lines
196-206): scope equality and, on a nullable column, agent_id equality. -/
def rowPred (scope_filter agent_filter : Option String) (r : VectorRow) : Bool :=
  (match scope_filter with
   | some s => decide (r.scope = s)
   | none => true) &&
  (match agent_filter with
   | some a => decide (r.agent_id = some a)
   | none => true)

/-- Ascending-distance order on engine hits. -/
def distLe (a b : VectorRow × ℚ) : Prop := a.2 ≤ b.2

instance : DecidableRel distLe := fun a b => inferInstanceAs (Decidable (a.2 ≤ b.2))

instance : IsTotal (VectorRow × ℚ) distLe := ⟨fun a b => le_total a.2 b.2⟩

instance : IsTrans (VectorRow × ℚ) distLe := ⟨fun _ _ _ h1 h2 => le_trans h1 h2⟩

/-- Model of the LanceDB nearest-neighbour engine behind
table.vector_search(...).limit(limit) with an optional predicate: exact KNN
over the stored rows, returned in ascending distance order, truncated at the
limit. -/
def engineHits (rows : List VectorRow) (q : List ℚ) (limit : Nat)
    (scope_filter agent_filter : Option String) : List (VectorRow × ℚ) :=
  (List.insertionSort distLe
    ((rows.filter (rowPred scope_filter agent_filter)).map
      (fun r => (r, dist2 q r.vec)))).take limit

/-- A hit returned by VectorStorage::search (vector.rs SearchResult,
lines 268-275). -/
structure SearchResult where
  id : String
  content : String
  scope : String
  memory_type : String
  score : ℚ
deriving DecidableEq, Repr

/-- Conversion of one engine row plus distance into a SearchResult with
score = 1 / (1 + distance) (vector.rs lines 245-258). -/
def SearchResult.ofHit (p : VectorRow × ℚ) : SearchResult :=
  { id := p.1.id, content := p.1.content, scope := p.1.scope,
    memory_type := p.1.memory_type, score := 1 / (1 + p.2) }

/-- The result loop of VectorStorage::search (vector.rs lines 245-260): each
engine hit is converted to a similarity score and kept only when
score >= min_score, in engine order. -/
def convertHits (min_score : ℚ) (hits : List (VectorRow × ℚ)) : List SearchResult :=
  hits.filterMap (fun p =>
    if min_score ≤ 1 / (1 + p.2) then some (SearchResult.ofHit p) else none)

/-- VectorStorage::search (vector.rs lines 175-264). -/
def VectorStorage.search (rows : List VectorRow) (query_embedding : List ℚ)
    (limit : Nat) (min_score : ℚ) (scope_filter agent_filter : Option String) :
    List SearchResult :=
  convertHits min_score (engineHits rows query_embedding limit scope_filter agent_filter)

/-- VectorStorage::delete_memory (vector.rs lines 158-172): delete any rows
with the given id; a no-op when none match. -/
def VectorStorage.delete_memory (rows : List VectorRow) (id : String) : List VectorRow :=
  rows.filter (fun r => r.id ≠ id)

/-- VectorStorage::upsert_memory (vector.rs lines 93-155): requires an
embedding of exactly the configured dimension, then delete-by-id followed by
insert of the fresh row. -/
def VectorStorage.upsert_memory (dims : Nat) (rows : List VectorRow) (m : Memory) :
    Except String (List VectorRow) :=
  match m.embedding with
  | none => .error "Memory has no embedding"
  | some e =>
    if e.length ≠ dims then .error "Embedding dimension mismatch"
    else .ok (VectorStorage.delete_memory rows m.id ++
      [{ id := m.id, content := m.content, scope := m.scope.toString,
         memory_type := m.memory_type.toString, agent_id := m.agent_id,
         topic_id := m.topic_id, vec := e }])

/-! ## AppendLog (storage/jsonl.rs), modelled as a map from (agent, topic) to
the sequence of messages appended, abstracting over the JSONL byte format. -/

/-- The conversation tree: logs agent topic is the content of
conversations/agent/topic.jsonl as a message sequence in append order. -/
abbrev Logs := String → String → List Message

/-- The empty conversation tree (no files on disk). -/
def emptyLogs : Logs := fun _ _ => []

/-- JsonlStorage::append (jsonl.rs lines 39-56): the message is written as one
line at the end of the file chosen by its own agent_id and topic_id. -/
def JsonlStorage.append (logs : Logs) (m : Message) : Logs :=
  fun a t => if a = m.agent_id ∧ t = m.topic_id then logs a t ++ [m] else logs a t

/-- JsonlStorage::read_all (jsonl.rs lines 59-80): a missing file reads as
empty; otherwise the messages in file (append) order. -/
def JsonlStorage.read_all (logs : Logs) (agent_id topic_id : String) : List Message :=
  logs agent_id topic_id

/-- JsonlStorage::read_last_n (jsonl.rs lines 83-87): read_all then the stable
tail all[len - n ..], with saturating subtraction. -/
def JsonlStorage.read_last_n (logs : Logs) (agent_id topic_id : String)
    (n : Nat) : List Message :=
  (JsonlStorage.read_all logs agent_id topic_id).drop
    ((JsonlStorage.read_all logs agent_id topic_id).length - n)

/-- JsonlStorage::total_tokens (jsonl.rs lines 119-122). -/
def JsonlStorage.total_tokens (logs : Logs) (agent_id topic_id : String) : Nat :=
  ((JsonlStorage.read_all logs agent_id topic_id).map (fun m => m.tokens)).sum

/-- Folding JsonlStorage::append over a sequence of messages. -/
def append_all (logs : Logs) (msgs : List Message) : Logs :=
  msgs.foldl JsonlStorage.append logs

/-! ## MemoryStore (memory.rs lines 219-308) over a combined state. -/

/-- The combined persistent state: MetaStore rows, VectorIndex rows, and the
AppendLog tree. -/
structure StoreState where
  meta : List Memory
  vector : List VectorRow
  logs : Logs

/-- MemoryStore::save_memory (memory.rs lines 264-274): save metadata, then
upsert into the vector store only when an embedding is present. (On a vector
failure the Rust state keeps the already-written metadata row; no claim
depends on that error path, so the error carries no state here.) -/
def MemoryStore.save_memory (dims : Nat) (st : StoreState) (m : Memory) :
    Except String StoreState :=
  let meta2 := SqliteStorage.save_memory st.meta m
  match m.embedding with
  | some _ =>
    match VectorStorage.upsert_memory dims st.vector m with
    | .error e => .error e
    | .ok v2 => .ok { st with meta := meta2, vector := v2 }
  | none => .ok { st with meta := meta2 }

/-- MemoryStore::delete_memory (memory.rs lines 293-297): delete from the
MetaStore, then from the VectorIndex; neither step can report a miss. -/
def MemoryStore.delete_memory (st : StoreState) (id : String) : StoreState :=
  { st with meta := SqliteStorage.delete_memory st.meta id,
            vector := VectorStorage.delete_memory st.vector id }

/-! ## Retrieval (retrieval.rs). -/

/-- Configuration (config.rs lines 7-31); paths are irrelevant here. -/
structure Config where
  embedding_dimensions : Nat
  max_retrieval_results : Nat
  min_similarity_score : ℚ
  context_warning_threshold : ℚ
  context_critical_threshold : ℚ

/-- Descending score order used by the sort in RetrievalEngine::retrieve;
over ℚ the partial_cmp in the source is total and the Rust sort is stable, as
is insertionSort with this relation. -/
def scoreGe (a b : SearchResult) : Prop := b.score ≤ a.score

instance : DecidableRel scoreGe := fun a b => inferInstanceAs (Decidable (b.score ≤ a.score))

instance : IsTotal SearchResult scoreGe := ⟨fun a b => le_total b.score a.score⟩

instance : IsTrans SearchResult scoreGe := ⟨fun _ _ _ h1 h2 => le_trans h2 h1⟩

/-- RetrievalContext (retrieval.rs lines 12-21). The RetrievedMemory struct of
retrieval.rs is field-for-field the SearchResult it is converted from, so
SearchResult is reused for the memories list. -/
structure RetrievalContext where
  memories : List SearchResult
  recent_messages : List Message
  total_tokens : Nat
deriving Repr

/-- RetrievalEngine::retrieve (retrieval.rs lines 102-167): embed the query;
search global-scope memories with limit max_retrieval_results / 2 (integer
division) and the configured floor; if an agent id is supplied, search again
with scope agent and that id; stable-sort the combined hits by descending
score; truncate to max_retrieval_results; read the recent tail only when both
agent and topic ids are present; total_tokens is the byte-length-quarter
estimate over the returned memories plus the stored token counts of the
recent messages. The function takes the store by shared reference and - as
the returned state records - performs no store mutation; in particular it
never invokes SqliteStorage::mark_memory_used. -/
def RetrievalEngine.retrieve (cfg : Config) (embed : String → List ℚ)
    (st : StoreState) (query : String) (agent_id topic_id : Option String)
    (max_recent_messages : Nat) : StoreState × RetrievalContext :=
  let query_embedding := embed query
  let global_results := VectorStorage.search st.vector query_embedding
    (cfg.max_retrieval_results / 2) cfg.min_similarity_score (some "global") none
  let agent_results := match agent_id with
    | some aid => VectorStorage.search st.vector query_embedding
        (cfg.max_retrieval_results / 2) cfg.min_similarity_score (some "agent") (some aid)
    | none => []
  let memories :=
    (List.insertionSort scoreGe (global_results ++ agent_results)).take
      cfg.max_retrieval_results
  let recent_messages := match agent_id, topic_id with
    | some aid, some tid => JsonlStorage.read_last_n st.logs aid tid max_recent_messages
    | _, _ => []
  let memory_tokens := (memories.map (fun m => m.content.utf8ByteSize / 4)).sum
  let message_tokens := (recent_messages.map (fun m => m.tokens)).sum
  (st, { memories := memories, recent_messages := recent_messages,
         total_tokens := memory_tokens + message_tokens })

/-- RetrievalEngine::embed_and_save (retrieval.rs lines 170-177). -/
def embed_and_save (embed : String → List ℚ) (dims : Nat) (st : StoreState)
    (m : Memory) : Except Nat (StoreState × Memory) :=
  let m2 := { m with embedding := some (embed m.content) }
  match MemoryStore.save_memory dims st m2 with
  | .error _ => .error 500
  | .ok st2 => .ok (st2, m2)

/-- ContextBudget (retrieval.rs lines 263-268). -/
structure ContextBudget where
  limit : Nat
  used : Nat
  warning_threshold : ℚ
  critical_threshold : ℚ
deriving DecidableEq, Repr

/-- ContextBudget::new (retrieval.rs lines 272-279). -/
def ContextBudget.new (limit : Nat) (warning_threshold critical_threshold : ℚ) :
    ContextBudget :=
  { limit := limit, used := 0, warning_threshold := warning_threshold,
    critical_threshold := critical_threshold }

/-- ContextBudget::add (retrieval.rs lines 282-284). -/
def ContextBudget.add (b : ContextBudget) (tokens : Nat) : ContextBudget :=
  { b with used := b.used + tokens }

/-- ContextBudget::utilization (retrieval.rs lines 287-289), as an exact
rational; the f32 value is this quotient rounded, finite whenever limit > 0. -/
def ContextBudget.utilization (b : ContextBudget) : ℚ :=
  (b.used : ℚ) / (b.limit : ℚ)

/-- ContextBudget::is_warning (retrieval.rs lines 292-294). -/
def ContextBudget.is_warning (b : ContextBudget) : Bool :=
  decide (b.warning_threshold ≤ b.utilization)

/-- ContextBudget::is_critical (retrieval.rs lines 297-299). -/
def ContextBudget.is_critical (b : ContextBudget) : Bool :=
  decide (b.critical_threshold ≤ b.utilization)

/-- ContextBudget::remaining (retrieval.rs lines 302-304), saturating. -/
def ContextBudget.remaining (b : ContextBudget) : Nat :=
  b.limit - b.used

/-- ContextBudget::status (retrieval.rs lines 307-315): critical first, then
warning, else ok. -/
def ContextBudget.status (b : ContextBudget) : String :=
  if b.is_critical then "critical"
  else if b.is_warning then "warning"
  else "ok"

/-! ## HTTP handlers (bin/server.rs). Fresh ids and times are parameters;
error results carry the HTTP status code. -/

/-- Request body of POST /memories (server.rs lines 135-144). -/
structure CreateMemoryRequest where
  scope : String
  memory_type : String
  agent_id : Option String
  topic_id : Option String
  content : String
  context : Option String
  tags : Option (List String)
deriving DecidableEq, Repr

/-- The per-scope construction step of create_memory (server.rs lines
169-181): a missing required id for the scope is a 400; personal builds the
same Memory::global value as global. -/
def build_scoped_memory (fresh_id : String) (now : Nat) (scope : MemoryScope)
    (memory_type : MemoryType) (req : CreateMemoryRequest) : Except Nat Memory :=
  match scope with
  | .global => .ok (Memory.global fresh_id now memory_type req.content)
  | .agent =>
    match req.agent_id with
    | none => .error 400
    | some aid => .ok (Memory.for_agent fresh_id now aid memory_type req.content)
  | .topic =>
    match req.agent_id with
    | none => .error 400
    | some aid =>
      match req.topic_id with
      | none => .error 400
      | some tid => .ok (Memory.for_topic fresh_id now aid tid memory_type req.content)
  | .personal => .ok (Memory.global fresh_id now memory_type req.content)

/-- The POST /memories handler create_memory (server.rs lines 146-199):
validate scope and type strings (400 on unknown), build the scoped memory,
apply optional context and tags, then embed and save. -/
def create_memory (embed : String → List ℚ) (dims : Nat) (fresh_id : String)
    (now : Nat) (st : StoreState) (req : CreateMemoryRequest) :
    Except Nat (StoreState × Memory) :=
  match parse_scope req.scope with
  | none => .error 400
  | some scope =>
    match parse_memory_type req.memory_type with
    | none => .error 400
    | some memory_type =>
      match build_scoped_memory fresh_id now scope memory_type req with
      | .error e => .error e
      | .ok m0 =>
        let m1 := match req.context with
          | some c => m0.with_context c
          | none => m0
        let m2 := match req.tags with
          | some ts => m1.with_tags ts
          | none => m1
        embed_and_save embed dims st m2

/-- The GET /memories handler list_memories (server.rs lines 100-133): the
scope query parameter goes through Option.and_then, so an unknown scope string
becomes None (no scope filter) rather than an error; active_only defaults to
true. The handler itself never rejects. -/
def list_memories (st : StoreState) (scope : Option String)
    (agent_id topic_id : Option String) (active_only : Option Bool) :
    Except Nat (List Memory) :=
  .ok (SqliteStorage.list_memories st.meta (scope.bind parse_scope)
    agent_id topic_id (active_only.getD true))

/-- The DELETE /memories/:id handler delete_memory (server.rs lines 218-233):
delete from both stores (each a no-op on a miss) and answer 204. The id is
taken post-UUID-parse. -/
def delete_memory (st : StoreState) (id : String) : StoreState × Nat :=
  (MemoryStore.delete_memory st id, 204)

/-- Request body of POST /messages (server.rs lines 304-310). -/
structure AppendMessageRequest where
  agent_id : String
  topic_id : String
  role : String
  content : String
deriving DecidableEq, Repr

/-- The POST /messages handler append_message (server.rs lines 312-337):
validate the role string (400 on unknown), count tokens server-side, append
to the log. -/
def append_message (count : String → Nat) (fresh_id : String) (now : Nat)
    (st : StoreState) (req : AppendMessageRequest) :
    Except Nat (StoreState × Message) :=
  match parse_role req.role with
  | none => .error 400
  | some role =>
    let tokens := count req.content
    let msg : Message :=
      { id := fresh_id, agent_id := req.agent_id, topic_id := req.topic_id,
        role := role, content := req.content, tokens := tokens, timestamp := now }
    .ok ({ st with logs := JsonlStorage.append st.logs msg }, msg)

/-- Response body of GET /tokens/budget (server.rs lines 385-392). -/
structure TokenBudgetResponse where
  used : Nat
  limit : Nat
  remaining : Nat
  utilization : ℚ
  status : String
deriving Repr

/-- The GET /tokens/budget handler get_token_budget (server.rs lines
394-423): total tokens from the AppendLog, hard-coded limit 128000, budget
status from the configured thresholds. -/
def get_token_budget (st : StoreState) (warning_threshold critical_threshold : ℚ)
    (agent_id topic_id : String) : TokenBudgetResponse :=
  let total := JsonlStorage.total_tokens st.logs agent_id topic_id
  let budget := (ContextBudget.new 128000 warning_threshold critical_threshold).add total
  { used := budget.used, limit := budget.limit, remaining := budget.remaining,
    utilization := budget.utilization, status := budget.status }

/-! ## Concrete fixtures used to evaluate the code on specific inputs. -/

/-- A small configuration: dimension 1, ten results, floor 0.7, thresholds
0.8 / 0.95 (the defaults of config.rs except the dimension). -/
def cfg0 : Config :=
  { embedding_dimensions := 1, max_retrieval_results := 10,
    min_similarity_score := 7/10, context_warning_threshold := 8/10,
    context_critical_threshold := 95/100 }

/-- An embedder mapping every text to the one-dimensional vector [0]. -/
def embed0 : String → List ℚ := fun _ => [0]

/-- A stored global memory with retrieval_count 0 and last_used_at absent. -/
def mem0 : Memory :=
  { id := "m1", scope := .global, memory_type := .fact, agent_id := none,
    topic_id := none, content := "kebab", context := none, tags := [],
    embedding := none, created_at := 0, last_used_at := none,
    retrieval_count := 0, active := true }

/-- The vector row of mem0, embedded at [0]. -/
def row0 : VectorRow :=
  { id := "m1", content := "kebab", scope := "global", memory_type := "fact",
    agent_id := none, topic_id := none, vec := [0] }

/-- A store holding exactly mem0 / row0 and no conversation logs. -/
def st0 : StoreState := { meta := [mem0], vector := [row0], logs := emptyLogs }

/-! ## Helper lemmas. -/

/-- The three status bands of ContextBudget::status, under ordered
thresholds: the critical test runs first, then warning, else ok. -/
theorem budget_status_iff (b : ContextBudget)
    (hwc : b.warning_threshold ≤ b.critical_threshold) :
    (b.status = "ok" ↔ b.utilization < b.warning_threshold)
    ∧ (b.status = "warning" ↔
        b.warning_threshold ≤ b.utilization ∧ b.utilization < b.critical_threshold)
    ∧ (b.status = "critical" ↔ b.critical_threshold ≤ b.utilization) := by
  simp only [ContextBudget.status, ContextBudget.is_critical, ContextBudget.is_warning,
    decide_eq_true_eq]
  by_cases hc : b.critical_threshold ≤ b.utilization
  · have hw : b.warning_threshold ≤ b.utilization := le_trans hwc hc
    simp only [if_pos hc]
    refine ⟨⟨fun h => absurd h (by decide), fun h => absurd hc (by linarith)⟩,
      ⟨fun h => absurd h (by decide), fun h => absurd hc (by linarith [h.2])⟩,
      ⟨fun _ => hc, fun _ => trivial⟩⟩
  · by_cases hw : b.warning_threshold ≤ b.utilization
    · simp only [if_neg hc, if_pos hw]
      refine ⟨⟨fun h => absurd h (by decide), fun h => absurd hw (by linarith)⟩,
        ⟨fun _ => ⟨hw, lt_of_not_le hc⟩, fun _ => trivial⟩,
        ⟨fun h => absurd h (by decide), fun h => absurd h hc⟩⟩
    · simp only [if_neg hc, if_neg hw]
      refine ⟨⟨fun _ => lt_of_not_le hw, fun _ => trivial⟩,
        ⟨fun h => absurd h (by decide), fun h => absurd h.1 hw⟩,
        ⟨fun h => absurd h (by decide), fun h => absurd h hc⟩⟩

/-! ## Claim theorems. -/

/-- C2 (amended; the original claim quantifies over arbitrary thresholds, for
which it fails when critical < warning): for every used count, positive limit
(under which the f32 utilization is finite) and thresholds with
warning ≤ critical, the status computed by ContextBudget::status - and hence
by the GET /tokens/budget endpoint - is ok iff utilization < warning, warning
iff warning ≤ utilization < critical, and critical iff utilization ≥
critical, where utilization = used / limit. -/
theorem context_budget_status_bands (used limit : Nat) (w c : ℚ)
    (_hl : 0 < limit) (hwc : w ≤ c) :
    ((ContextBudget.mk limit used w c).status = "ok"
        ↔ (ContextBudget.mk limit used w c).utilization < w)
    ∧ ((ContextBudget.mk limit used w c).status = "warning"
        ↔ w ≤ (ContextBudget.mk limit used w c).utilization
          ∧ (ContextBudget.mk limit used w c).utilization < c)
    ∧ ((ContextBudget.mk limit used w c).status = "critical"
        ↔ c ≤ (ContextBudget.mk limit used w c).utilization)
    ∧ (∀ st a t,
        ((get_token_budget st w c a t).status = "ok"
            ↔ (get_token_budget st w c a t).utilization < w)
        ∧ ((get_token_budget st w c a t).status = "warning"
            ↔ w ≤ (get_token_budget st w c a t).utilization
              ∧ (get_token_budget st w c a t).utilization < c)
        ∧ ((get_token_budget st w c a t).status = "critical"
            ↔ c ≤ (get_token_budget st w c a t).utilization)) := by
  have hmain := budget_status_iff (ContextBudget.mk limit used w c) hwc
  refine ⟨hmain.1, hmain.2.1, hmain.2.2, fun st a t => ?_⟩
  exact budget_status_iff
    (ContextBudget.mk 128000 (0 + JsonlStorage.total_tokens st.logs a t) w c) hwc

/-- C2 witness: with used 3, limit 8, warning 1/4, critical 1/2, utilization
is 3/8 and the status is warning. -/
theorem context_budget_status_bands_witness :
    (ContextBudget.mk 8 3 (1/4) (1/2)).status = "warning" :=
  ((context_budget_status_bands 3 8 (1/4) (1/2) (by norm_num) (by norm_num)).2.1).mpr
    (by constructor <;> norm_num [ContextBudget.utilization])

/-- C2 counterexample to the original unrestricted claim: with warning 1/2
and critical 1/4 (nothing in the code orders the thresholds), used 3 of limit
8 gives utilization 3/8 < warning, yet the status is critical, not ok. -/
theorem context_budget_status_bands_counterexample :
    (ContextBudget.mk 8 3 (1/2) (1/4)).utilization < 1/2
    ∧ (ContextBudget.mk 8 3 (1/2) (1/4)).status = "critical"
    ∧ ¬((ContextBudget.mk 8 3 (1/2) (1/4)).status = "ok"
        ↔ (ContextBudget.mk 8 3 (1/2) (1/4)).utilization < 1/2) := by
  have hcrit : (ContextBudget.mk 8 3 (1/2) (1/4)).status = "critical" := by
    norm_num [ContextBudget.status, ContextBudget.is_critical, ContextBudget.utilization]
  have hutil : (ContextBudget.mk 8 3 (1/2) (1/4)).utilization < 1/2 := by
    norm_num [ContextBudget.utilization]
  refine ⟨hutil, hcrit, fun hiff => ?_⟩
  have hok := hiff.mpr hutil
  rw [hcrit] at hok
  exact absurd hok (by decide)

/-- C1 (amended; the original claim also asserts a 400 for the scope query
parameter of GET /memories, which the handler instead silently ignores): the
closed vocabularies are exactly as claimed, POST /memories answers 400 for a
scope or memory_type string outside its vocabulary, POST /messages answers
400 for a role string outside its vocabulary, and GET /memories treats an
out-of-vocabulary scope parameter as no scope filter at all (the request
succeeds). -/
theorem enum_validation (embed : String → List ℚ) (dims : Nat) (fresh_id : String)
    (now : Nat) (st : StoreState) (req : CreateMemoryRequest)
    (count : String → Nat) (mreq : AppendMessageRequest) :
    (∀ s, parse_scope s = none
        ↔ s ∉ (["global", "agent", "topic", "personal"] : List String))
    ∧ (∀ s, parse_memory_type s = none
        ↔ s ∉ (["correction", "preference", "fact", "workflow", "constraint"] : List String))
    ∧ (∀ s, parse_role s = none
        ↔ s ∉ (["system", "user", "assistant", "tool"] : List String))
    ∧ (parse_scope req.scope = none →
        create_memory embed dims fresh_id now st req = .error 400)
    ∧ (parse_memory_type req.memory_type = none →
        create_memory embed dims fresh_id now st req = .error 400)
    ∧ (parse_role mreq.role = none →
        append_message count fresh_id now st mreq = .error 400)
    ∧ (∀ sc aq tq ao, parse_scope sc = none →
        list_memories st (some sc) aq tq ao = list_memories st none aq tq ao) := by
  refine ⟨?_, ?_, ?_, ?_, ?_, ?_, ?_⟩
  · intro s
    unfold parse_scope
    split_ifs <;> simp_all
  · intro s
    unfold parse_memory_type
    split_ifs <;> simp_all
  · intro s
    unfold parse_role
    split_ifs <;> simp_all
  · intro h
    unfold create_memory
    rw [h]
  · intro h
    unfold create_memory
    cases hps : parse_scope req.scope with
    | none => rfl
    | some sc => rw [h]
  · intro h
    unfold append_message
    rw [h]
  · intro sc aq tq ao h
    unfold list_memories
    simp [Option.bind, h]

/-- C1 witness: the POST handlers reject the out-of-vocabulary strings
"bogus" (scope) and "robot" (role) with 400. -/
theorem enum_validation_witness :
    create_memory (fun _ => [0]) 1 "id1" 0 ⟨[], [], emptyLogs⟩
        ⟨"bogus", "fact", none, none, "c", none, none⟩ = .error 400
    ∧ append_message (fun _ => 1) "id2" 0 ⟨[], [], emptyLogs⟩
        ⟨"a1", "t1", "robot", "hi"⟩ = .error 400 :=
  ⟨(enum_validation (fun _ => [0]) 1 "id1" 0 ⟨[], [], emptyLogs⟩
      ⟨"bogus", "fact", none, none, "c", none, none⟩ (fun _ => 1)
      ⟨"a1", "t1", "robot", "hi"⟩).2.2.2.1 (by decide),
   (enum_validation (fun _ => [0]) 1 "id1" 0 ⟨[], [], emptyLogs⟩
      ⟨"bogus", "fact", none, none, "c", none, none⟩ (fun _ => 1)
      ⟨"a1", "t1", "robot", "hi"⟩).2.2.2.2.2.1 (by decide)⟩

/-- C1 counterexample to the original claim: GET /memories with the
out-of-vocabulary scope string "bogus" is not rejected with 400; the handler
answers 200 with the unfiltered (here empty) list. -/
theorem list_memories_unknown_scope_not_rejected :
    parse_scope "bogus" = none
    ∧ list_memories ⟨[], [], emptyLogs⟩ (some "bogus") none none none = .ok []
    ∧ list_memories ⟨[], [], emptyLogs⟩ (some "bogus") none none none ≠ .error 400 := by
  refine ⟨by decide, rfl, ?_⟩
  intro h
  exact absurd h (by simp [list_memories])

/-- The conversion loop equals a map to scored results followed by the
min-score filter, so the engine-returned order is kept. -/
theorem convertHits_eq_filter (min_score : ℚ) (hits : List (VectorRow × ℚ)) :
    convertHits min_score hits
      = (hits.map SearchResult.ofHit).filter (fun r => decide (min_score ≤ r.score)) := by
  induction hits with
  | nil => rfl
  | cons p ps ih =>
    by_cases h : min_score ≤ 1 / (1 + p.2)
    · have hd : decide (min_score ≤ (SearchResult.ofHit p).score) = true := decide_eq_true h
      simp only [convertHits, List.filterMap_cons, if_pos h, List.map_cons,
        List.filter_cons, hd, if_true]
      exact congrArg (List.cons _) ih
    · have hd : decide (min_score ≤ (SearchResult.ofHit p).score) = false :=
        decide_eq_false h
      simp only [convertHits, List.filterMap_cons, if_neg h, List.map_cons,
        List.filter_cons, hd, if_false]
      exact ih

/-- The similarity conversion is antitone on nonnegative distances. -/
theorem score_anti_mono {d1 d2 : ℚ} (h0 : 0 ≤ d1) (h12 : d1 ≤ d2) :
    1 / (1 + d2) ≤ 1 / (1 + d1) :=
  one_div_le_one_div_of_le (by linarith) (by linarith)

/-- C6: every engine-returned L2 distance d becomes the similarity score
1 / (1 + d); hits with score < min-score are dropped and the rest keep the
engine order (first conjunct: the result is exactly the score-map of the
hits filtered at the floor, in order); when the engine order is ascending
distance the result is descending score (second conjunct, distances being
nonnegative); and every returned score lies in (0, 1] (third conjunct). -/
theorem vector_search_score_conversion (hits : List (VectorRow × ℚ)) (min_score : ℚ) :
    convertHits min_score hits
        = (hits.map SearchResult.ofHit).filter (fun r => decide (min_score ≤ r.score))
    ∧ ((∀ p ∈ hits, 0 ≤ p.2) → List.Pairwise distLe hits →
        List.Pairwise scoreGe (convertHits min_score hits))
    ∧ ((∀ p ∈ hits, 0 ≤ p.2) →
        ∀ r ∈ convertHits min_score hits, 0 < r.score ∧ r.score ≤ 1) := by
  refine ⟨convertHits_eq_filter min_score hits, ?_, ?_⟩
  · intro h0 hp
    rw [convertHits_eq_filter]
    have hmapped : List.Pairwise scoreGe (hits.map SearchResult.ofHit) := by
      rw [List.pairwise_map]
      exact hp.imp_of_mem (fun {p} {q} hpm _ hle =>
        score_anti_mono (h0 p hpm) hle)
    exact hmapped.sublist (List.filter_sublist _)
  · intro h0 r hr
    obtain ⟨p, hpmem, hpr⟩ := List.mem_filterMap.mp hr
    by_cases h : min_score ≤ 1 / (1 + p.2)
    · rw [if_pos h] at hpr
      obtain rfl := Option.some.inj hpr
      have hd := h0 p hpmem
      constructor
      · show (0 : ℚ) < 1 / (1 + p.2)
        exact one_div_pos.mpr (by linarith)
      · show (1 : ℚ) / (1 + p.2) ≤ 1
        rw [div_le_one (by linarith)]
        linarith
    · rw [if_neg h] at hpr
      exact absurd hpr (by simp)

/-- C6 witness: on two engine hits at distances 0 and 1/4 the converted list
is descending by score, and the leading score 1 lies in (0, 1]. -/
theorem vector_search_score_conversion_witness :
    List.Pairwise scoreGe (convertHits (7/10)
      [(⟨"m1", "c1", "global", "fact", none, none, [0]⟩, (0 : ℚ)),
       (⟨"m2", "c2", "global", "fact", none, none, [1]⟩, (1/4 : ℚ))])
    ∧ (0 < (SearchResult.ofHit (⟨"m1", "c1", "global", "fact", none, none, [0]⟩, (0 : ℚ))).score
        ∧ (SearchResult.ofHit (⟨"m1", "c1", "global", "fact", none, none, [0]⟩, (0 : ℚ))).score ≤ 1) := by
  have hnn : ∀ p ∈ [((⟨"m1", "c1", "global", "fact", none, none, [0]⟩ : VectorRow), (0 : ℚ)),
      ((⟨"m2", "c2", "global", "fact", none, none, [1]⟩ : VectorRow), (1/4 : ℚ))], 0 ≤ p.2 := by
    intro p hp
    simp only [List.mem_cons, List.not_mem_nil, or_false] at hp
    rcases hp with rfl | rfl <;> norm_num
  have hsorted : List.Pairwise distLe
      [((⟨"m1", "c1", "global", "fact", none, none, [0]⟩ : VectorRow), (0 : ℚ)),
       ((⟨"m2", "c2", "global", "fact", none, none, [1]⟩ : VectorRow), (1/4 : ℚ))] := by
    constructor
    · intro q hq
      simp only [List.mem_cons, List.not_mem_nil, or_false] at hq
      subst hq
      norm_num [distLe]
    · exact List.pairwise_singleton _ _
  have hmem : SearchResult.ofHit (⟨"m1", "c1", "global", "fact", none, none, [0]⟩, (0 : ℚ))
      ∈ convertHits (7/10)
        [((⟨"m1", "c1", "global", "fact", none, none, [0]⟩ : VectorRow), (0 : ℚ)),
         ((⟨"m2", "c2", "global", "fact", none, none, [1]⟩ : VectorRow), (1/4 : ℚ))] := by
    have h1 : (7/10 : ℚ) ≤ 1 / (1 + 0) := by norm_num
    simp only [convertHits, List.filterMap_cons, if_pos h1]
    exact List.mem_cons_self _ _
  exact ⟨(vector_search_score_conversion
      [(⟨"m1", "c1", "global", "fact", none, none, [0]⟩, (0 : ℚ)),
       (⟨"m2", "c2", "global", "fact", none, none, [1]⟩, (1/4 : ℚ))] (7/10)).2.1
      hnn hsorted,
    (vector_search_score_conversion
      [(⟨"m1", "c1", "global", "fact", none, none, [0]⟩, (0 : ℚ)),
       (⟨"m2", "c2", "global", "fact", none, none, [1]⟩, (1/4 : ℚ))] (7/10)).2.2
      hnn _ hmem⟩

/-- C5: retrieve performs the global-scope search with limit
max_retrieval_results / 2 (integer division) and the configured floor,
performs the agent-scope search with the same limit and floor exactly when an
agent id is supplied, stable-sorts the combined hits by descending score
(scores are exact rationals here, so the NaN tie rule of the source cannot
fire) and truncates to max_retrieval_results, reads the recent tail only when
both ids are present, and returns total_tokens equal to the sum of
content-byte-length / 4 over the returned memories plus the sum of the tokens
field over the recent messages. -/
theorem retrieve_pipeline (cfg : Config) (embed : String → List ℚ) (st : StoreState)
    (query : String) (agent_id topic_id : Option String) (k : Nat) :
    (RetrievalEngine.retrieve cfg embed st query agent_id topic_id k).2.memories
        = (List.insertionSort scoreGe
            (VectorStorage.search st.vector (embed query) (cfg.max_retrieval_results / 2)
              cfg.min_similarity_score (some "global") none
             ++ (match agent_id with
                 | some aid => VectorStorage.search st.vector (embed query)
                     (cfg.max_retrieval_results / 2) cfg.min_similarity_score
                     (some "agent") (some aid)
                 | none => []))).take cfg.max_retrieval_results
    ∧ List.Pairwise scoreGe
        (RetrievalEngine.retrieve cfg embed st query agent_id topic_id k).2.memories
    ∧ (RetrievalEngine.retrieve cfg embed st query agent_id topic_id k).2.memories.length
        ≤ cfg.max_retrieval_results
    ∧ (RetrievalEngine.retrieve cfg embed st query agent_id topic_id k).2.recent_messages
        = (match agent_id, topic_id with
           | some aid, some tid => JsonlStorage.read_last_n st.logs aid tid k
           | _, _ => [])
    ∧ (RetrievalEngine.retrieve cfg embed st query agent_id topic_id k).2.total_tokens
        = ((RetrievalEngine.retrieve cfg embed st query agent_id topic_id k).2.memories.map
            (fun m => m.content.utf8ByteSize / 4)).sum
          + ((RetrievalEngine.retrieve cfg embed st query agent_id topic_id k).2.recent_messages.map
            (fun m => m.tokens)).sum := by
  refine ⟨rfl, ?_, ?_, rfl, rfl⟩
  · exact (List.sorted_insertionSort scoreGe _).sublist (List.take_sublist _ _)
  · exact List.length_take_le _ _

/-- C3 (code defect): contrary to the spec, retrieval performs no MetaStore
mutation at all. RetrievalEngine::retrieve takes the store by shared
reference and never calls SqliteStorage::mark_memory_used (that function and
Memory::mark_used have no caller anywhere in the crate), so the state
returned by the embedded retrieve is always exactly the input state (first
conjunct); on a store holding one matching global memory the retrieval does
return that memory (second conjunct) while the stored row keeps
retrieval_count 0 and no last_used_at (third to fifth conjuncts), although
mark_memory_used - had it been called - would have changed the row (last two
conjuncts). -/
theorem retrieve_never_marks_memory_used :
    (∀ cfg embed st query aid tid k,
      (RetrievalEngine.retrieve cfg embed st query aid tid k).1 = st)
    ∧ (RetrievalEngine.retrieve cfg0 embed0 st0 "query" none none 10).2.memories
        = [SearchResult.ofHit (row0, 0)]
    ∧ (RetrievalEngine.retrieve cfg0 embed0 st0 "query" none none 10).1.meta = [mem0]
    ∧ mem0.retrieval_count = 0
    ∧ mem0.last_used_at = none
    ∧ SqliteStorage.mark_memory_used 7 [mem0] "m1"
        = [{ mem0 with last_used_at := some 7, retrieval_count := 1 }]
    ∧ ({ mem0 with last_used_at := some 7, retrieval_count := 1 } : Memory) ≠ mem0 := by
  refine ⟨fun _ _ _ _ _ _ _ => rfl, ?_, rfl, rfl, rfl, ?_, ?_⟩
  · have hd : dist2 [0] [0] = 0 := by norm_num [dist2]
    have hstep1 : engineHits st0.vector (embed0 "query")
        (cfg0.max_retrieval_results / 2) (some "global") none = [(row0, 0)] := by
      simp [engineHits, rowPred, st0, row0, embed0, cfg0,
        List.insertionSort, List.orderedInsert, hd]
    have hstep2 : VectorStorage.search st0.vector (embed0 "query")
        (cfg0.max_retrieval_results / 2) cfg0.min_similarity_score (some "global") none
        = [SearchResult.ofHit (row0, 0)] := by
      rw [VectorStorage.search, hstep1]
      norm_num [convertHits, cfg0, List.filterMap_cons]
    have hmemories : (RetrievalEngine.retrieve cfg0 embed0 st0 "query" none none 10).2.memories
        = (List.insertionSort scoreGe
            (VectorStorage.search st0.vector (embed0 "query") (cfg0.max_retrieval_results / 2)
              cfg0.min_similarity_score (some "global") none ++ [])).take
            cfg0.max_retrieval_results := rfl
    rw [hmemories, hstep2]
    simp [List.insertionSort, List.orderedInsert, cfg0]
  · simp [SqliteStorage.mark_memory_used, mem0]
  · simp [mem0]

/-- Appending a keyed message sequence extends each addressed log in order. -/
theorem read_all_append_all (a t : String) :
    ∀ (msgs : List Message) (L : Logs),
      (∀ m ∈ msgs, m.agent_id = a ∧ m.topic_id = t) →
      JsonlStorage.read_all (append_all L msgs) a t
        = JsonlStorage.read_all L a t ++ msgs := by
  intro msgs
  induction msgs with
  | nil =>
    intro L _
    simp [append_all, JsonlStorage.read_all]
  | cons m ms ih =>
    intro L h
    have hm := h m (List.mem_cons_self m ms)
    have hstep : append_all L (m :: ms) = append_all (JsonlStorage.append L m) ms := rfl
    rw [hstep, ih (JsonlStorage.append L m) (fun x hx => h x (List.mem_cons_of_mem m hx))]
    have happ : JsonlStorage.read_all (JsonlStorage.append L m) a t
        = JsonlStorage.read_all L a t ++ [m] := by
      simp only [JsonlStorage.read_all, JsonlStorage.append]
      rw [if_pos ⟨hm.1.symm, hm.2.symm⟩]
    rw [happ, List.append_assoc]
    rfl

/-- C4: for any sequence of messages appended to one (agent, topic) log,
read_all returns exactly those messages in append order, and for every k,
read_last_n k returns the suffix of the sequence of length
min(k, total number of messages). -/
theorem jsonl_append_read_roundtrip (a t : String) (msgs : List Message)
    (h : ∀ m ∈ msgs, m.agent_id = a ∧ m.topic_id = t) :
    JsonlStorage.read_all (append_all emptyLogs msgs) a t = msgs
    ∧ ∀ k, JsonlStorage.read_last_n (append_all emptyLogs msgs) a t k
          = msgs.drop (msgs.length - k)
      ∧ (JsonlStorage.read_last_n (append_all emptyLogs msgs) a t k).length
          = min k msgs.length
      ∧ (JsonlStorage.read_last_n (append_all emptyLogs msgs) a t k).IsSuffix msgs := by
  have hall : JsonlStorage.read_all (append_all emptyLogs msgs) a t = msgs := by
    rw [read_all_append_all a t msgs emptyLogs h]
    simp [JsonlStorage.read_all, emptyLogs]
  refine ⟨hall, fun k => ⟨?_, ?_, ?_⟩⟩
  · simp only [JsonlStorage.read_last_n, hall]
  · simp only [JsonlStorage.read_last_n, hall, List.length_drop]
    omega
  · simp only [JsonlStorage.read_last_n, hall]
    exact ⟨msgs.take (msgs.length - k), List.take_append_drop _ _⟩

/-- C4 witness: two appended messages read back in order, and the last-1 tail
is the second message. -/
theorem jsonl_append_read_roundtrip_witness :
    JsonlStorage.read_all (append_all emptyLogs
        [⟨"i1", "a1", "t1", .user, "hello", 1, 0⟩,
         ⟨"i2", "a1", "t1", .assistant, "hi", 1, 1⟩]) "a1" "t1"
      = [⟨"i1", "a1", "t1", .user, "hello", 1, 0⟩,
         ⟨"i2", "a1", "t1", .assistant, "hi", 1, 1⟩]
    ∧ JsonlStorage.read_last_n (append_all emptyLogs
        [⟨"i1", "a1", "t1", .user, "hello", 1, 0⟩,
         ⟨"i2", "a1", "t1", .assistant, "hi", 1, 1⟩]) "a1" "t1" 1
      = [⟨"i2", "a1", "t1", .assistant, "hi", 1, 1⟩] := by
  have h := jsonl_append_read_roundtrip "a1" "t1"
      [⟨"i1", "a1", "t1", .user, "hello", 1, 0⟩,
       ⟨"i2", "a1", "t1", .assistant, "hi", 1, 1⟩] (by decide)
  exact ⟨h.1, ((h.2 1).1).trans (by decide)⟩

/-- Memories produced by the per-scope constructors satisfy the scope shape. -/
theorem scope_shape_build {fresh_id : String} {now : Nat} {scope : MemoryScope}
    {memory_type : MemoryType} {req : CreateMemoryRequest} {m : Memory}
    (h : build_scoped_memory fresh_id now scope memory_type req = .ok m) :
    scope_shape m = true := by
  cases scope with
  | global =>
    simp only [build_scoped_memory, Except.ok.injEq] at h
    rw [← h]
    rfl
  | agent =>
    cases haid : req.agent_id with
    | none =>
      simp only [build_scoped_memory, haid] at h
      exact Except.noConfusion h
    | some aid =>
      simp only [build_scoped_memory, haid, Except.ok.injEq] at h
      rw [← h]
      rfl
  | topic =>
    cases haid : req.agent_id with
    | none =>
      simp only [build_scoped_memory, haid] at h
      exact Except.noConfusion h
    | some aid =>
      cases htid : req.topic_id with
      | none =>
        simp only [build_scoped_memory, haid, htid] at h
        exact Except.noConfusion h
      | some tid =>
        simp only [build_scoped_memory, haid, htid, Except.ok.injEq] at h
        rw [← h]
        rfl
  | personal =>
    simp only [build_scoped_memory, Except.ok.injEq] at h
    rw [← h]
    rfl

/-- The metadata upsert keeps the all-rows scope-shape invariant: updates
leave scope, agent_id and topic_id untouched, and inserts add a row of the
shape of the saved memory. -/
theorem scope_shape_save {meta : List Memory} {m : Memory}
    (hm : scope_shape m = true) (hall : ∀ r ∈ meta, scope_shape r = true) :
    ∀ r ∈ SqliteStorage.save_memory meta m, scope_shape r = true := by
  intro r hr
  unfold SqliteStorage.save_memory at hr
  split at hr
  · obtain ⟨x, hx, hmap⟩ := List.mem_map.mp hr
    by_cases hid : x.id = m.id
    · rw [if_pos hid] at hmap
      rw [← hmap]
      exact hall x hx
    · rw [if_neg hid] at hmap
      rw [← hmap]
      exact hall x hx
  · rcases List.mem_append.mp hr with h1 | h2
    · exact hall r h1
    · rw [List.mem_singleton] at h2
      rw [h2]
      exact hm

/-- Applying the optional context and tags of the request leaves the scope
fields untouched. -/
theorem scope_shape_opt_fields (m0 : Memory) (c : Option String)
    (ts : Option (List String)) :
    scope_shape (match ts with
      | some tags =>
        (match c with
         | some ctx => m0.with_context ctx
         | none => m0).with_tags tags
      | none =>
        match c with
        | some ctx => m0.with_context ctx
        | none => m0) = scope_shape m0 := by
  cases c <;> cases ts <;> rfl

/-- A successful embed-and-save records the embedded memory and writes its
metadata row through the upsert. -/
theorem embed_and_save_ok {embed : String → List ℚ} {dims : Nat} {st : StoreState}
    {m : Memory} {st2 : StoreState} {m2 : Memory}
    (h : embed_and_save embed dims st m = .ok (st2, m2)) :
    m2 = { m with embedding := some (embed m.content) }
    ∧ st2.meta = SqliteStorage.save_memory st.meta
        { m with embedding := some (embed m.content) } := by
  simp only [embed_and_save] at h
  cases hsv : MemoryStore.save_memory dims st { m with embedding := some (embed m.content) } with
  | error e =>
    rw [hsv] at h
    exact Except.noConfusion h
  | ok st3 =>
    rw [hsv] at h
    have h2 := Except.ok.inj h
    rw [Prod.mk.injEq] at h2
    obtain ⟨hfst, hsnd⟩ := h2
    subst hfst
    subst hsnd
    refine ⟨rfl, ?_⟩
    simp only [MemoryStore.save_memory] at hsv
    cases hup : VectorStorage.upsert_memory dims st.vector
        { m with embedding := some (embed m.content) } with
    | error e2 =>
      rw [hup] at hsv
      exact Except.noConfusion hsv
    | ok v2 =>
      rw [hup] at hsv
      obtain rfl := Except.ok.inj hsv
      rfl

/-- C7: every memory created through the POST /memories handler satisfies the
scope-shape invariant; the invariant is preserved on the whole MetaStore, so
get and list only ever return shape-satisfying memories; and a creation
request missing a required id for its scope is rejected with 400. -/
theorem create_memory_scope_shape (embed : String → List ℚ) (dims : Nat)
    (fresh_id : String) (now : Nat) (st : StoreState) (req : CreateMemoryRequest)
    (hinv : ∀ m ∈ st.meta, scope_shape m = true) :
    (∀ st2 m, create_memory embed dims fresh_id now st req = .ok (st2, m) →
        scope_shape m = true
        ∧ (∀ r ∈ st2.meta, scope_shape r = true)
        ∧ (∀ i r, SqliteStorage.get_memory st2.meta i = some r → scope_shape r = true)
        ∧ (∀ sc aq tq ao r, r ∈ SqliteStorage.list_memories st2.meta sc aq tq ao →
            scope_shape r = true))
    ∧ (parse_scope req.scope = some .agent → req.agent_id = none →
        create_memory embed dims fresh_id now st req = .error 400)
    ∧ (parse_scope req.scope = some .topic → req.agent_id = none ∨ req.topic_id = none →
        create_memory embed dims fresh_id now st req = .error 400) := by
  refine ⟨?_, ?_, ?_⟩
  · intro st2 m hok
    unfold create_memory at hok
    split at hok
    · exact Except.noConfusion hok
    rename_i scope hps
    split at hok
    · exact Except.noConfusion hok
    rename_i mt hmt
    split at hok
    · exact Except.noConfusion hok
    rename_i m0 hb
    obtain ⟨hm2, hmeta⟩ := embed_and_save_ok hok
    have hm0 : scope_shape m0 = true := scope_shape_build hb
    have hshape : scope_shape m = true := by
      rw [hm2]
      exact (scope_shape_opt_fields m0 req.context req.tags).trans hm0
    have hallmeta : ∀ r ∈ st2.meta, scope_shape r = true := by
      rw [hmeta]
      exact scope_shape_save
        ((scope_shape_opt_fields m0 req.context req.tags).trans hm0) hinv
    refine ⟨hshape, hallmeta, ?_, ?_⟩
    · intro i r hget
      exact hallmeta r (List.mem_of_find?_eq_some hget)
    · intro sc aq tq ao r hr
      have hr2 := (List.mem_insertionSort createdGe).mp hr
      exact hallmeta r (List.mem_of_mem_filter hr2)
  · intro hps haid
    unfold create_memory
    rw [hps]
    cases hmt : parse_memory_type req.memory_type with
    | none => rfl
    | some mt => simp [build_scoped_memory, haid]
  · intro hps hdisj
    unfold create_memory
    rw [hps]
    cases hmt : parse_memory_type req.memory_type with
    | none => rfl
    | some mt =>
      rcases hdisj with haid | htid
      · simp [build_scoped_memory, haid]
      · cases haid2 : req.agent_id with
        | none => simp [build_scoped_memory, haid2]
        | some aid => simp [build_scoped_memory, haid2, htid]

/-- C7 witness: an agent-scope request without an agent id is rejected with
400 (the invariant being trivially maintained on an empty store). -/
theorem create_memory_scope_shape_witness :
    create_memory (fun _ => [0]) 1 "id" 0 ⟨[], [], emptyLogs⟩
        ⟨"agent", "fact", none, none, "c", none, none⟩ = .error 400 :=
  (create_memory_scope_shape (fun _ => [0]) 1 "id" 0 ⟨[], [], emptyLogs⟩
      ⟨"agent", "fact", none, none, "c", none, none⟩ (by simp)).2.1 (by decide) rfl

/-- C8: DELETE /memories/:id always answers 204; a second delete of the same
id produces the same state as the first; and on an id that exists in neither
store (in particular any nonexistent memory) the delete is a no-op on both
the MetaStore and the VectorIndex. -/
theorem delete_memory_idempotent (st : StoreState) (id : String) :
    (delete_memory st id).2 = 204
    ∧ delete_memory (delete_memory st id).1 id = delete_memory st id
    ∧ ((∀ m ∈ st.meta, m.id ≠ id) → (∀ r ∈ st.vector, r.id ≠ id) →
        (delete_memory st id).1 = st) := by
  refine ⟨rfl, ?_, ?_⟩
  · simp [delete_memory, MemoryStore.delete_memory, SqliteStorage.delete_memory,
      VectorStorage.delete_memory, List.filter_filter]
  · intro h1 h2
    obtain ⟨meta, vec, logs⟩ := st
    simp only [delete_memory, MemoryStore.delete_memory, SqliteStorage.delete_memory,
      VectorStorage.delete_memory]
    congr 1
    · exact List.filter_eq_self.mpr (fun a ha => by simpa using h1 a ha)
    · exact List.filter_eq_self.mpr (fun a ha => by simpa using h2 a ha)

/-- C8 witness: deleting an id absent from a one-memory store leaves the
state untouched. -/
theorem delete_memory_idempotent_witness :
    (delete_memory ⟨[⟨"m9", .global, .fact, none, none, "x", none, [], none, 0, none, 0, true⟩],
        [], emptyLogs⟩ "nope").1
      = ⟨[⟨"m9", .global, .fact, none, none, "x", none, [], none, 0, none, 0, true⟩],
        [], emptyLogs⟩ :=
  (delete_memory_idempotent
      ⟨[⟨"m9", .global, .fact, none, none, "x", none, [], none, 0, none, 0, true⟩],
        [], emptyLogs⟩ "nope").2.2 (by decide) (by decide)

/-- Applying the optional context and tags of the request leaves the scope
constructor itself untouched. -/
theorem scope_opt_fields (m0 : Memory) (c : Option String)
    (ts : Option (List String)) :
    (match ts with
      | some tags =>
        (match c with
         | some ctx => m0.with_context ctx
         | none => m0).with_tags tags
      | none =>
        match c with
        | some ctx => m0.with_context ctx
        | none => m0).scope = m0.scope := by
  cases c <;> cases ts <;> rfl

/-- C9: a POST /memories request with scope personal takes exactly the same
path as the same request with scope global - the handler calls are equal as
functions of the remaining inputs - and any memory it produces carries scope
global (label "global", not "personal"); the request is accepted whenever the
type string is valid and the embedder's output has the configured dimension. -/
theorem personal_scope_treated_as_global (embed : String → List ℚ) (dims : Nat)
    (fresh_id : String) (now : Nat) (st : StoreState) (req : CreateMemoryRequest) :
    create_memory embed dims fresh_id now st { req with scope := "personal" }
        = create_memory embed dims fresh_id now st { req with scope := "global" }
    ∧ (∀ st2 m, create_memory embed dims fresh_id now st { req with scope := "personal" }
          = .ok (st2, m) → m.scope = MemoryScope.global ∧ m.scope.toString = "global")
    ∧ (parse_memory_type req.memory_type ≠ none → (embed req.content).length = dims →
        ∃ st2 m, create_memory embed dims fresh_id now st { req with scope := "personal" }
          = .ok (st2, m)) := by
  refine ⟨rfl, ?_, ?_⟩
  · intro st2 m hok
    unfold create_memory at hok
    split at hok
    · exact Except.noConfusion hok
    rename_i scope hps
    split at hok
    · exact Except.noConfusion hok
    rename_i mt hmt
    split at hok
    · exact Except.noConfusion hok
    rename_i m0 hb
    obtain ⟨hm2, _⟩ := embed_and_save_ok hok
    have hscope0 : m0.scope = MemoryScope.global := by
      have hpsv : parse_scope "personal" = some MemoryScope.personal := by decide
      have : scope = MemoryScope.personal := by
        have := hps.symm.trans hpsv
        exact Option.some.inj this
      subst this
      simp only [build_scoped_memory, Except.ok.injEq] at hb
      rw [← hb]
      rfl
    have hscope : m.scope = MemoryScope.global := by
      rw [hm2]
      exact (scope_opt_fields m0 req.context req.tags).trans hscope0
    exact ⟨hscope, by rw [hscope]; rfl⟩
  · intro hmt hlen
    cases hmtv : parse_memory_type req.memory_type with
    | none => exact absurd hmtv hmt
    | some mt =>
      cases hc : req.context with
      | none =>
        cases ht : req.tags with
        | none =>
          simp [create_memory, parse_scope, build_scoped_memory, Memory.global, hmtv, hc, ht,
            embed_and_save, MemoryStore.save_memory, VectorStorage.upsert_memory, hlen]
        | some ts =>
          simp [create_memory, parse_scope, build_scoped_memory, Memory.global, hmtv, hc, ht,
            embed_and_save, MemoryStore.save_memory, VectorStorage.upsert_memory,
            Memory.with_tags, hlen]
      | some c =>
        cases ht : req.tags with
        | none =>
          simp [create_memory, parse_scope, build_scoped_memory, Memory.global, hmtv, hc, ht,
            embed_and_save, MemoryStore.save_memory, VectorStorage.upsert_memory,
            Memory.with_context, hlen]
        | some ts =>
          simp [create_memory, parse_scope, build_scoped_memory, Memory.global, hmtv, hc, ht,
            embed_and_save, MemoryStore.save_memory, VectorStorage.upsert_memory,
            Memory.with_context, Memory.with_tags, hlen]

/-- C9 witness: a personal-scope creation on an empty store succeeds and its
result equals the global-scope creation; concretely the handler is evaluated
at a request with type fact and a one-dimensional embedder. -/
theorem personal_scope_treated_as_global_witness :
    create_memory (fun _ => [0]) 1 "id" 0 ⟨[], [], emptyLogs⟩
        ⟨"personal", "fact", none, none, "c", none, none⟩
      = create_memory (fun _ => [0]) 1 "id" 0 ⟨[], [], emptyLogs⟩
        ⟨"global", "fact", none, none, "c", none, none⟩
    ∧ ∃ st2 m, create_memory (fun _ => [0]) 1 "id" 0 ⟨[], [], emptyLogs⟩
        ⟨"personal", "fact", none, none, "c", none, none⟩ = .ok (st2, m) :=
  ⟨(personal_scope_treated_as_global (fun _ => [0]) 1 "id" 0 ⟨[], [], emptyLogs⟩
      ⟨"personal", "fact", none, none, "c", none, none⟩).1,
   (personal_scope_treated_as_global (fun _ => [0]) 1 "id" 0 ⟨[], [], emptyLogs⟩
      ⟨"personal", "fact", none, none, "c", none, none⟩).2.2 (by decide) rfl⟩

/-- Every id returned by a vector search is the id of a stored row. -/
theorem search_id_mem (rows : List VectorRow) (q : List ℚ) (lim : Nat) (ms : ℚ)
    (sf af : Option String) (r : SearchResult)
    (hr : r ∈ VectorStorage.search rows q lim ms sf af) :
    ∃ row ∈ rows, r.id = row.id := by
  unfold VectorStorage.search convertHits at hr
  obtain ⟨p, hp, hpr⟩ := List.mem_filterMap.mp hr
  split at hpr
  · obtain rfl := Option.some.inj hpr
    have hp2 : p ∈ List.insertionSort distLe
        ((rows.filter (rowPred sf af)).map (fun row => (row, dist2 q row.vec))) :=
      List.take_subset _ _ hp
    have hp3 := (List.mem_insertionSort distLe).mp hp2
    obtain ⟨row, hrowmem, heq⟩ := List.mem_map.mp hp3
    refine ⟨row, List.mem_of_mem_filter hrowmem, ?_⟩
    rw [← heq]
    rfl
  · exact Option.noConfusion hpr

/-- C10: saving a memory whose embedding is absent writes the metadata row,
leaves the VectorIndex untouched, and succeeds; the memory is then visible to
get-by-id, while vector search - whose results all carry ids of stored vector
rows - can never return it (its id not being in the vector store). -/
theorem save_memory_without_embedding (dims : Nat) (st : StoreState) (m : Memory)
    (h : m.embedding = none) :
    MemoryStore.save_memory dims st m
        = .ok { st with meta := SqliteStorage.save_memory st.meta m }
    ∧ (SqliteStorage.get_memory (SqliteStorage.save_memory st.meta m) m.id).isSome = true
    ∧ ((∀ r ∈ st.vector, r.id ≠ m.id) →
        ∀ q lim ms sf af r, r ∈ VectorStorage.search st.vector q lim ms sf af →
          r.id ≠ m.id) := by
  refine ⟨?_, ?_, ?_⟩
  · simp only [MemoryStore.save_memory, h]
  · unfold SqliteStorage.get_memory SqliteStorage.save_memory
    split
    · rename_i hany
      rw [List.any_eq_true] at hany
      obtain ⟨x, hx, hxid⟩ := hany
      rw [List.find?_isSome]
      refine ⟨_, List.mem_map.mpr ⟨x, hx, rfl⟩, ?_⟩
      rw [decide_eq_true_eq] at hxid
      rw [if_pos hxid]
      exact decide_eq_true hxid
    · rw [List.find?_isSome]
      exact ⟨{ m with embedding := none },
        List.mem_append.mpr (Or.inr (List.mem_singleton.mpr rfl)),
        decide_eq_true rfl⟩
  · intro hfresh q lim ms sf af r hr
    obtain ⟨row, hrow, hid⟩ := search_id_mem st.vector q lim ms sf af r hr
    rw [hid]
    exact hfresh row hrow

/-- C10 witness: saving an embeddingless memory into the empty store writes
only the metadata row and reports success. -/
theorem save_memory_without_embedding_witness :
    MemoryStore.save_memory 1 ⟨[], [], emptyLogs⟩
        ⟨"mw", .global, .fact, none, none, "x", none, [], none, 0, none, 0, true⟩
      = .ok { meta := [⟨"mw", .global, .fact, none, none, "x", none, [], none, 0, none, 0, true⟩],
              vector := [], logs := emptyLogs } :=
  (save_memory_without_embedding 1 ⟨[], [], emptyLogs⟩
      ⟨"mw", .global, .fact, none, none, "x", none, [], none, 0, none, 0, true⟩ rfl).1.trans
    (by rfl)

end Dieah
